import Mathlib

/-!
# Verification of the `wapi` cache module

A shallow embedding of `src/api/cache.rs` (the `Cache` struct and its
methods `new`, `fmt`, `load`, `add_dns_provider`, `remove_dns_provider`)
together with the pieces of the libraries the module leans on: Rust's
`Ipv4Addr`/`Ipv6Addr` string parsers (`core::net::parser`), chrono's
timestamp formatting, and a model of `serde_json` deserialization for the
cache schema.

Effects are made explicit: the wall clock (`chrono::Local::now`) becomes a
`LocalTime` argument, and the environment `load` interacts with (home
directory resolution, the result of reading the cache file) becomes
arguments describing the outcome of each call.
-/

namespace Wapi

/-- Rust struct `Metadata` (cache.rs lines 14-22). -/
structure Metadata where
  warning : String
  name : String
  version : String
  description : String
  homepage : String
  timestamp : String
deriving DecidableEq

/-- Rust struct `DNSProvider` (cache.rs lines 24-29). -/
structure DNSProvider where
  id : String
  api_key : String
  secret_api_key : String
deriving DecidableEq

/-- Rust struct `Data` (cache.rs lines 31-36). -/
structure Data where
  ipv4_address : String
  ipv6_address : String
  dns_providers : List DNSProvider
deriving DecidableEq

/-- Rust struct `Cache` (cache.rs lines 38-45). -/
structure Cache where
  metadata : Metadata
  data : Data
deriving DecidableEq

/-- The 18 recognized DNS provider ids, in the order of the `match` arms of
`Cache::fmt` (cache.rs lines 102-119). -/
def providerWhitelist : List String :=
  ["alibabacloud", "bluehost", "cloudflare", "dnspod", "dreamhost", "dynadot",
   "enom", "epik", "gandi", "godaddy", "hover", "ionos", "namecheap",
   "namesilo", "opensrs", "ovh", "porkbun", "resellerclub"]

/-- The `Vec::retain` pass of `Cache::fmt` (cache.rs lines 99-121), run on the
reversed provider list.  The `match p.id.as_str()` with 18 identical arms is the
membership test `p.id ∈ providerWhitelist`; the `HashSet` of already seen ids is
the `seen` list (`HashSet::insert` records the id and reports whether it was
new, and `retain` keeps the entry exactly when it was new). -/
def retainProviders : List DNSProvider → List String → List DNSProvider
  | [], _ => []
  | p :: rest, seen =>
    if p.id ∈ providerWhitelist then
      if p.id ∈ seen then retainProviders rest (p.id :: seen)
      else p :: retainProviders rest (p.id :: seen)
    else retainProviders rest seen

/-- The whole provider-normalization step of `Cache::fmt` (cache.rs lines
98-122): reverse, retain with the seen-set, reverse back. -/
def dedupProviders (l : List DNSProvider) : List DNSProvider :=
  (retainProviders l.reverse []).reverse

/-- Spec-side description of the deduplication policy (spec §3, §4.1 step 3),
generalized by a set `s` of ids that are already spoken for: keep an entry
exactly when its id is whitelisted, not in `s`, and has no later occurrence. -/
def keepLastAux : List DNSProvider → List String → List DNSProvider
  | [], _ => []
  | p :: rest, s =>
    if p.id ∈ providerWhitelist ∧ p.id ∉ s ∧ ∀ q ∈ rest, q.id ≠ p.id then
      p :: keepLastAux rest s
    else keepLastAux rest s

/-- Spec-side description of the deduplication policy (spec §3, §4.1 step 3):
keep exactly the last occurrence of each whitelisted id, drop everything else,
preserve the original relative order of the kept entries. -/
def keepLast (l : List DNSProvider) : List DNSProvider :=
  keepLastAux l []

/-- The seen-set accumulated by `retainProviders` over a prefix. -/
def seenAfter : List DNSProvider → List String → List String
  | [], s => s
  | p :: rest, s =>
    if p.id ∈ providerWhitelist then seenAfter rest (p.id :: s)
    else seenAfter rest s

/-!
## Rust's IP address parsers

`Cache::fmt` calls `str::parse::<Ipv4Addr>` and `str::parse::<Ipv6Addr>`
(cache.rs lines 87 and 93).  These are implemented in `core::net::parser`;
the functions below translate that parser.  State-passing replaces the
mutable byte cursor: each reader takes the remaining input and returns the
parsed value together with the rest, `none` meaning the reader failed (and,
as with `read_atomically`, consumed nothing as far as the caller is
concerned). -/

/-- `char::to_digit(radix)`. -/
def charToDigit (radix : Nat) (c : Char) : Option Nat :=
  let v : Option Nat :=
    if '0' ≤ c ∧ c ≤ '9' then some (c.toNat - '0'.toNat)
    else if 'a' ≤ c ∧ c ≤ 'z' then some (c.toNat - 'a'.toNat + 10)
    else if 'A' ≤ c ∧ c ≤ 'Z' then some (c.toNat - 'A'.toNat + 10)
    else none
  match v with
  | some d => if d < radix then some d else none
  | none => none

/-- The digit-reading loop of `Parser::read_number`: consume digits while the
next char is a digit in `radix`, tracking the accumulated value and the digit
count.  `none` models the `checked_mul`/`checked_add` overflow aborts (`maxVal`
is the maximum of the Rust result type, 255 for `u8` and 65535 for `u16`) and
the `max_digits` abort. -/
def readNumberLoop (radix maxVal maxDigits : Nat) :
    List Char → Nat → Nat → Option (Nat × Nat × List Char)
  | [], result, count => some (result, count, [])
  | c :: rest, result, count =>
    match charToDigit radix c with
    | none => some (result, count, c :: rest)
    | some d =>
      if result * radix + d > maxVal then none
      else if count + 1 > maxDigits then none
      else readNumberLoop radix maxVal maxDigits rest (result * radix + d) (count + 1)

/-- `Parser::read_number(radix, Some(maxDigits), allowLeadingZeros)`: the last
argument tells whether a multi-digit number may start with `0`. -/
def readNumber (radix maxVal maxDigits : Nat) (allowLeadingZeros : Bool)
    (input : List Char) : Option (Nat × List Char) :=
  let hasLeadingZero := input.head? = some '0'
  match readNumberLoop radix maxVal maxDigits input 0 0 with
  | none => none
  | some (result, count, rest) =>
    if count = 0 then none
    else if ¬allowLeadingZeros ∧ hasLeadingZero ∧ count > 1 then none
    else some (result, rest)

/-- `Parser::read_given_char`. -/
def readGivenChar (target : Char) : List Char → Option (List Char)
  | [] => none
  | c :: rest => if c = target then some rest else none

/-- `Parser::read_separator(sep, index, inner)`: at every index after the
first, require the separator before running `inner`. -/
def readSeparator {α : Type} (sep : Char) (i : Nat)
    (inner : List Char → Option (α × List Char))
    (input : List Char) : Option (α × List Char) :=
  if i > 0 then
    match readGivenChar sep input with
    | none => none
    | some rest => inner rest
  else inner input

/-- `Parser::read_ipv4_addr`: four base-10 `u8` groups (at most 3 digits, no
leading zeros) separated by dots. -/
def readIpv4 (input : List Char) : Option ((Nat × Nat × Nat × Nat) × List Char) :=
  match readSeparator '.' 0 (readNumber 10 255 3 false) input with
  | none => none
  | some (a, r1) =>
    match readSeparator '.' 1 (readNumber 10 255 3 false) r1 with
    | none => none
    | some (b, r2) =>
      match readSeparator '.' 2 (readNumber 10 255 3 false) r2 with
      | none => none
      | some (c, r3) =>
        match readSeparator '.' 3 (readNumber 10 255 3 false) r3 with
        | none => none
        | some (d, r4) => some ((a, b, c, d), r4)

/-- The `read_groups` helper of `Parser::read_ipv6_addr`, recursing on the
number of group slots still available.  At each index, when at least two slots
remain, first try a colon-separated trailing embedded IPv4 address (which fills
two groups and stops with the flag set); otherwise read a colon-separated
base-16 `u16` group of at most 4 digits (leading zeros allowed).  Returns the
groups read in order, the embedded-IPv4 flag, and the remaining input. -/
def readGroupsAux : Nat → Nat → List Char → List Nat → List Nat × Bool × List Char
  | 0, _, input, acc => (acc.reverse, false, input)
  | remaining + 1, i, input, acc =>
    let v4 : Option ((Nat × Nat) × List Char) :=
      if remaining ≥ 1 then
        match readSeparator ':' i readIpv4 input with
        | some ((a, b, c, d), rest) => some ((a * 256 + b, c * 256 + d), rest)
        | none => none
      else none
    match v4 with
    | some ((g1, g2), rest) => (acc.reverse ++ [g1, g2], true, rest)
    | none =>
      match readSeparator ':' i (readNumber 16 65535 4 true) input with
      | some (g, rest) => readGroupsAux remaining (i + 1) rest (g :: acc)
      | none => (acc.reverse, false, input)

def readGroups (limit : Nat) (input : List Char) : List Nat × Bool × List Char :=
  readGroupsAux limit 0 input []

/-- `Parser::read_ipv6_addr`: up to 8 groups; a full head of 8 groups is an
address; otherwise an embedded IPv4 must not precede `::`, a `::` is required,
and a tail of at most `8 - (head + 1)` groups follows, the gap standing for
zero groups. -/
def readIpv6 (input : List Char) : Option (List Nat × List Char) :=
  match readGroups 8 input with
  | (head, headIpv4, rest) =>
    if head.length = 8 then some (head, rest)
    else if headIpv4 then none
    else
      match readGivenChar ':' rest with
      | none => none
      | some r2 =>
        match readGivenChar ':' r2 with
        | none => none
        | some r3 =>
          match readGroups (8 - (head.length + 1)) r3 with
          | (tail, _, r4) =>
            some (head ++ List.replicate (8 - head.length - tail.length) 0 ++ tail, r4)

/-- `Ipv4Addr::from_str`: `parse_with` additionally demands that the whole
input is consumed. -/
def parseIpv4 (s : String) : Option (Nat × Nat × Nat × Nat) :=
  match readIpv4 s.data with
  | some (v, []) => some v
  | _ => none

/-- `Ipv6Addr::from_str`: `parse_with` additionally demands that the whole
input is consumed. -/
def parseIpv6 (s : String) : Option (List Nat) :=
  match readIpv6 s.data with
  | some (v, []) => some v
  | _ => none

/-!
## The cache operations

`Cache::fmt` reads the wall clock through `chrono::Local::now()`; the clock
value becomes an explicit `LocalTime` argument. -/

/-- The fields of a local wall-clock instant that the format string
`"%Y-%m-%d %H:%M:%S%.3f"` consumes. -/
structure LocalTime where
  year : Nat
  month : Nat
  day : Nat
  hour : Nat
  minute : Nat
  second : Nat
  milli : Nat
deriving DecidableEq

/-- Zero-pad the decimal rendering of `n` to at least `w` characters (chrono
pads each numeric specifier this way and never truncates). -/
def padZeros (w : Nat) (n : Nat) : String :=
  String.mk (List.replicate (w - (toString n).length) '0') ++ toString n

/-- chrono's `Local::now().format("%Y-%m-%d %H:%M:%S%.3f").to_string()`
(cache.rs line 125): `%Y` pads the year to 4 digits, `%m %d %H %M %S` to 2,
and `%.3f` renders `.` followed by 3 millisecond digits. -/
def formatTimestamp (t : LocalTime) : String :=
  padZeros 4 t.year ++ "-" ++ padZeros 2 t.month ++ "-" ++ padZeros 2 t.day ++ " " ++
    padZeros 2 t.hour ++ ":" ++ padZeros 2 t.minute ++ ":" ++ padZeros 2 t.second ++
    "." ++ padZeros 3 t.milli

/-- Modelled from the spec: "the running program's version string" — the value
of `env!("CARGO_PKG_VERSION")` (cache.rs line 82), supplied by Cargo.toml,
which is not among the sources.  Every claim treats it as an opaque constant;
its concrete value is never relied upon. -/
def cargoPkgVersion : String := "0.1.0"

/-- The fixed warning string of `Cache::fmt` (cache.rs line 80). -/
def warningText : String :=
  "THIS FILE IS AUTO-GENERATED. DO NOT EDIT MANUALLY. IF THE FILE IS TAMPERED WITH, IT WILL BE OVERWRITTEN WITH DEFAULT DATA, AND ALL PREVIOUS DATA WILL BE LOST."

/-- `Cache::fmt` (cache.rs lines 78-126) with the clock passed explicitly:
overwrite every metadata field with its fixed value and the timestamp with the
formatted `now`; keep each IP address exactly when it parses, else replace it
with the default; deduplicate the provider list. -/
def Cache.fmt (c : Cache) (now : LocalTime) : Cache :=
  { metadata :=
      { warning := warningText
        name := "wapi-cache"
        version := cargoPkgVersion
        description := "The cache file for the Wapi client."
        homepage := "https://github.com/AmonRayfa/wapi"
        timestamp := formatTimestamp now }
    data :=
      { ipv4_address :=
          match parseIpv4 c.data.ipv4_address with
          | some _ => c.data.ipv4_address
          | none => "0.0.0.0"
        ipv6_address :=
          match parseIpv6 c.data.ipv6_address with
          | some _ => c.data.ipv6_address
          | none => "0:0:0:0:0:0:0:0"
        dns_providers := dedupProviders c.data.dns_providers } }

/-- `Cache::new` (cache.rs lines 55-70): all-empty fields, then one `fmt`. -/
def Cache.new (now : LocalTime) : Cache :=
  Cache.fmt ⟨⟨"", "", "", "", "", ""⟩, ⟨"", "", []⟩⟩ now

/-- `Cache::add_dns_provider` (cache.rs lines 195-199): `fmt`, push the new
provider, `fmt` again.  `t1` and `t2` are the clock readings of the two `fmt`
calls. -/
def Cache.add_dns_provider (c : Cache) (id api_key secret_api_key : String)
    (t1 t2 : LocalTime) : Cache :=
  let c1 := c.fmt t1
  let c2 : Cache :=
    { c1 with data :=
        { c1.data with dns_providers :=
            c1.data.dns_providers ++ [⟨id, api_key, secret_api_key⟩] } }
  c2.fmt t2

/-- `Cache::remove_dns_provider` (cache.rs lines 202-206): `fmt`, retain the
providers whose id differs, `fmt` again. -/
def Cache.remove_dns_provider (c : Cache) (id : String) (t1 t2 : LocalTime) : Cache :=
  let c1 := c.fmt t1
  let c2 : Cache :=
    { c1 with data :=
        { c1.data with dns_providers :=
            c1.data.dns_providers.filter (fun p => p.id ≠ id) } }
  c2.fmt t2

/-- A cache whose `DATA` block is a fixed point of the data half of `fmt`
("already normalized"; the metadata half of `fmt` is overwritten on every call
regardless). -/
def Cache.DataNormalized (c : Cache) : Prop :=
  (parseIpv4 c.data.ipv4_address).isSome ∧
    (parseIpv6 c.data.ipv6_address).isSome ∧
    dedupProviders c.data.dns_providers = c.data.dns_providers

instance (c : Cache) : Decidable c.DataNormalized := by
  unfold Cache.DataNormalized
  infer_instance

/-!
## `serde_json` and `Cache::load`

`Cache::load` (cache.rs lines 137-160) touches the environment three times:
`Cache::get_path` (home-directory resolution), `std::fs::read_to_string`, and
`serde_json::from_str`.  The first two become arguments carrying the outcome
of the call; deserialization is modelled by a JSON parser plus a field reader
for the cache schema, mirroring serde's behavior for this derive: all fields
required, duplicate fields rejected, unknown fields ignored. -/

/-- The JSON document model of `serde_json`. -/
inductive Json where
  | null : Json
  | bool : Bool → Json
  | num : Int → Json
  | str : String → Json
  | arr : List Json → Json
  | obj : List (String × Json) → Json

/-- Skip JSON whitespace. -/
def skipWs : List Char → List Char
  | c :: rest =>
    if c = ' ' ∨ c = '\t' ∨ c = '\n' ∨ c = '\r' then skipWs rest else c :: rest
  | [] => []

/-- Body of `readJsonStr`, by fuel (every step consumes at least one input
character, so the fuel `readJsonStr` supplies never runs out first). -/
def readJsonStrAux : Nat → List Char → Option (String × List Char)
  | 0, _ => none
  | _ + 1, [] => none
  | fuel + 1, c :: rest =>
    if c = '"' then some ("", rest)
    else if c = '\\' then
      match rest with
      | [] => none
      | e :: rest2 =>
        let esc : Option (Char × List Char) :=
          if e = '"' then some ('"', rest2)
          else if e = '\\' then some ('\\', rest2)
          else if e = '/' then some ('/', rest2)
          else if e = 'n' then some ('\n', rest2)
          else if e = 't' then some ('\t', rest2)
          else if e = 'r' then some ('\r', rest2)
          else if e = 'b' then some ('\x08', rest2)
          else if e = 'f' then some ('\x0c', rest2)
          else if e = 'u' then
            match rest2 with
            | h1 :: h2 :: h3 :: h4 :: rest3 =>
              match charToDigit 16 h1, charToDigit 16 h2,
                  charToDigit 16 h3, charToDigit 16 h4 with
              | some d1, some d2, some d3, some d4 =>
                some (Char.ofNat (((d1 * 16 + d2) * 16 + d3) * 16 + d4), rest3)
              | _, _, _, _ => none
            | _ => none
          else none
        match esc with
        | none => none
        | some (ch, rest3) =>
          match readJsonStrAux fuel rest3 with
          | some (s, rest4) => some (String.mk (ch :: s.data), rest4)
          | none => none
    else
      match readJsonStrAux fuel rest with
      | some (s, rest2) => some (String.mk (c :: s.data), rest2)
      | none => none

/-- Read the body of a JSON string after the opening quote, handling the
escape sequences of RFC 8259 (`\uXXXX` mapped through `Char.ofNat`). -/
def readJsonStr (input : List Char) : Option (String × List Char) :=
  readJsonStrAux (input.length + 1) input

/-- Read the digits of a JSON number (sign, digits, optional fraction and
exponent), returning its integer part (fractional information is irrelevant to
the cache schema, whose values are all strings). -/
def readJsonNumTail : List Char → Nat → Nat × List Char
  | c :: rest, acc =>
    match charToDigit 10 c with
    | some d => readJsonNumTail rest (acc * 10 + d)
    | none => (acc, c :: rest)
  | [], acc => (acc, [])

/-- Consume the exponent digits of a JSON number (optional sign first). -/
def skipExp (input : List Char) : List Char :=
  match input with
  | '+' :: rest => (readJsonNumTail rest 0).2
  | '-' :: rest => (readJsonNumTail rest 0).2
  | other => (readJsonNumTail other 0).2

/-- Consume a fraction / exponent tail of a number, whose value the cache
schema never looks at. -/
def skipJsonNumExtras (input : List Char) : List Char :=
  match input with
  | '.' :: rest => (readJsonNumTail rest 0).2
  | 'e' :: rest => skipExp rest
  | 'E' :: rest => skipExp rest
  | other => other

mutual

/-- JSON value parser, by fuel.  The cache schema needs objects, arrays and
strings; numbers, booleans and null are consumed so that arbitrary valid JSON
is recognized. -/
def parseJsonValue : Nat → List Char → Option (Json × List Char)
  | 0, _ => none
  | fuel + 1, input =>
    match skipWs input with
    | [] => none
    | c :: rest =>
      if c = '"' then
        match readJsonStr rest with
        | some (s, rest2) => some (Json.str s, rest2)
        | none => none
      else if c = '\x7b' then
        match skipWs rest with
        | '\x7d' :: rest2 => some (Json.obj [], rest2)
        | rest2 => parseJsonMembers fuel rest2 []
      else if c = '[' then
        match skipWs rest with
        | ']' :: rest2 => some (Json.arr [], rest2)
        | rest2 => parseJsonElements fuel rest2 []
      else if c = 't' then
        match rest with
        | 'r' :: 'u' :: 'e' :: rest2 => some (Json.bool true, rest2)
        | _ => none
      else if c = 'f' then
        match rest with
        | 'a' :: 'l' :: 's' :: 'e' :: rest2 => some (Json.bool false, rest2)
        | _ => none
      else if c = 'n' then
        match rest with
        | 'u' :: 'l' :: 'l' :: rest2 => some (Json.null, rest2)
        | _ => none
      else if c = '-' then
        match rest with
        | d :: rest2 =>
          match charToDigit 10 d with
          | some v =>
            match readJsonNumTail rest2 v with
            | (n, rest3) => some (Json.num (-(n : Int)), skipJsonNumExtras rest3)
          | none => none
        | [] => none
      else
        match charToDigit 10 c with
        | some v =>
          match readJsonNumTail rest v with
          | (n, rest3) => some (Json.num (n : Int), skipJsonNumExtras rest3)
        | none => none

/-- Parse object members (a quoted key, a colon, a value) until the closing
brace. -/
def parseJsonMembers : Nat → List Char → List (String × Json) → Option (Json × List Char)
  | 0, _, _ => none
  | fuel + 1, input, acc =>
    match skipWs input with
    | '"' :: rest =>
      match readJsonStr rest with
      | none => none
      | some (k, rest2) =>
        match skipWs rest2 with
        | ':' :: rest3 =>
          match parseJsonValue fuel rest3 with
          | none => none
          | some (v, rest4) =>
            match skipWs rest4 with
            | ',' :: rest5 => parseJsonMembers fuel rest5 ((k, v) :: acc)
            | '\x7d' :: rest5 => some (Json.obj ((k, v) :: acc).reverse, rest5)
            | _ => none
        | _ => none
    | _ => none

/-- Parse array elements until the closing bracket. -/
def parseJsonElements : Nat → List Char → List Json → Option (Json × List Char)
  | 0, _, _ => none
  | fuel + 1, input, acc =>
    match parseJsonValue fuel input with
    | none => none
    | some (v, rest) =>
      match skipWs rest with
      | ',' :: rest2 => parseJsonElements fuel rest2 (v :: acc)
      | ']' :: rest2 => some (Json.arr (v :: acc).reverse, rest2)
      | _ => none

end

/-- Parse a complete JSON document: one value surrounded by whitespace. -/
def parseJsonDoc (s : String) : Option Json :=
  match parseJsonValue (s.data.length + 1) s.data with
  | some (v, rest) =>
    match skipWs rest with
    | [] => some v
    | _ => none
  | none => none

/-- serde's struct field lookup: required, and rejected when duplicated. -/
def getField (fields : List (String × Json)) (k : String) : Except String Json :=
  match fields.filter (fun f => f.1 = k) with
  | [v] => Except.ok v.2
  | [] => Except.error ("missing field `" ++ k ++ "`")
  | _ => Except.error ("duplicate field `" ++ k ++ "`")

/-- Deserialize a JSON value as a string. -/
def getStr (j : Json) : Except String String :=
  match j with
  | Json.str s => Except.ok s
  | _ => Except.error "invalid type: expected a string"

/-- `Deserialize` for `DNSProvider`. -/
def providerFromJson (j : Json) : Except String DNSProvider :=
  match j with
  | Json.obj fields => do
    let id ← getField fields "id" >>= getStr
    let api_key ← getField fields "api_key" >>= getStr
    let secret_api_key ← getField fields "secret_api_key" >>= getStr
    pure ⟨id, api_key, secret_api_key⟩
  | _ => Except.error "invalid type: expected struct DNSProvider"

/-- `Deserialize` for `Metadata`. -/
def metadataFromJson (j : Json) : Except String Metadata :=
  match j with
  | Json.obj fields => do
    let warning ← getField fields "warning" >>= getStr
    let name ← getField fields "name" >>= getStr
    let version ← getField fields "version" >>= getStr
    let description ← getField fields "description" >>= getStr
    let homepage ← getField fields "homepage" >>= getStr
    let timestamp ← getField fields "timestamp" >>= getStr
    pure ⟨warning, name, version, description, homepage, timestamp⟩
  | _ => Except.error "invalid type: expected struct Metadata"

/-- `Deserialize` for `Data`. -/
def dataFromJson (j : Json) : Except String Data :=
  match j with
  | Json.obj fields => do
    let ipv4_address ← getField fields "ipv4_address" >>= getStr
    let ipv6_address ← getField fields "ipv6_address" >>= getStr
    let providersJson ← getField fields "dns_providers"
    match providersJson with
    | Json.arr xs => do
      let dns_providers ← xs.mapM providerFromJson
      pure ⟨ipv4_address, ipv6_address, dns_providers⟩
    | _ => Except.error "invalid type: expected a sequence"
  | _ => Except.error "invalid type: expected struct Data"

/-- `Deserialize` for `Cache` (fields renamed `METADATA` / `DATA`,
cache.rs lines 41-44). -/
def cacheFromJson (j : Json) : Except String Cache :=
  match j with
  | Json.obj fields => do
    let metadata ← getField fields "METADATA" >>= metadataFromJson
    let data ← getField fields "DATA" >>= dataFromJson
    pure ⟨metadata, data⟩
  | _ => Except.error "invalid type: expected struct Cache"

/-- `serde_json::from_str::<Cache>`. -/
def cacheFromStr (s : String) : Except String Cache :=
  match parseJsonDoc s with
  | none => Except.error "invalid JSON"
  | some j => cacheFromJson j

/-- The `api` module's `Error` enum (error/api.rs lines 11-15): the failing
operation name and the underlying message. -/
inductive ApiError where
  | Cache : String → String → ApiError
deriving DecidableEq

/-- `Cache::load` (cache.rs lines 137-160) with the environment passed
explicitly: `homeDir` is the outcome of `Cache::get_path` (`none` when no home
directory can be resolved) and `readFile` the outcome of
`std::fs::read_to_string` on the cache path.  Resolve the path or fail with
the `locate` error; surface a read failure as a `load` error; deserialize and
surface a deserialization failure as a `load` error; otherwise return the
deserialized cache as is. -/
def Cache.load (homeDir : Option Unit) (readFile : Except String String) :
    Except ApiError Cache :=
  match homeDir with
  | none =>
    Except.error (ApiError.Cache "locate"
      "No valid user home directory path could be retrieved from the operating system.")
  | some _ =>
    match readFile with
    | Except.error e => Except.error (ApiError.Cache "load" e)
    | Except.ok content =>
      match cacheFromStr content with
      | Except.ok c => Except.ok c
      | Except.error e => Except.error (ApiError.Cache "load" e)

/-- A well-formed cache file whose stored `ipv4_address` is the invalid string
`"not-an-ip"` (as in the spec's hand-edited-file scenario). -/
def sampleBadIpv4File : String :=
  "\x7b\"METADATA\": \x7b\"warning\": \"w\", \"name\": \"n\", \"version\": \"v\", \"description\": \"d\", \"homepage\": \"h\", \"timestamp\": \"t\"\x7d, \"DATA\": \x7b\"ipv4_address\": \"not-an-ip\", \"ipv6_address\": \"::1\", \"dns_providers\": [\x7b\"id\": \"cloudflare\", \"api_key\": \"k\", \"secret_api_key\": \"s\"\x7d]\x7d\x7d"

/-- The record `sampleBadIpv4File` deserializes to. -/
def sampleBadIpv4Cache : Cache :=
  ⟨⟨"w", "n", "v", "d", "h", "t"⟩,
   ⟨"not-an-ip", "::1", [⟨"cloudflare", "k", "s"⟩]⟩⟩

/-- A `DATA`-normalized cache with one credential, reused by witnesses. -/
def sampleNormalizedCache : Cache :=
  ⟨⟨"w", "n", "v", "d", "h", "t"⟩,
   ⟨"1.2.3.4", "::1", [⟨"cloudflare", "k", "s"⟩]⟩⟩

/-- A fixed clock instant, reused by witnesses. -/
def sampleNow : LocalTime := ⟨2025, 1, 1, 0, 0, 0, 0⟩

/-!
## Properties of the deduplication pass

The reverse/retain/reverse loop of `Cache::fmt` computes the last-occurrence
filter described by the spec, and is the identity on lists already in that
form. -/

theorem retainProviders_append (a b : List DNSProvider) (s : List String) :
    retainProviders (a ++ b) s =
      retainProviders a s ++ retainProviders b (seenAfter a s) := by
  induction a generalizing s with
  | nil => simp [retainProviders, seenAfter]
  | cons p rest ih =>
    by_cases hw : p.id ∈ providerWhitelist
    · by_cases hs : p.id ∈ s <;>
        simp [retainProviders, seenAfter, hw, hs, ih]
    · simp [retainProviders, seenAfter, hw, ih]

theorem mem_seenAfter (a : List DNSProvider) (s : List String) (x : String) :
    x ∈ seenAfter a s ↔
      x ∈ s ∨ (x ∈ providerWhitelist ∧ ∃ p ∈ a, p.id = x) := by
  induction a generalizing s with
  | nil => simp [seenAfter]
  | cons p rest ih =>
    by_cases hw : p.id ∈ providerWhitelist
    · simp only [seenAfter, if_pos hw, ih, List.mem_cons]
      constructor
      · rintro (⟨h | h⟩ | ⟨hx, q, hq, hqx⟩)
        · subst h; exact Or.inr ⟨hw, p, Or.inl rfl, rfl⟩
        · exact Or.inl h
        · exact Or.inr ⟨hx, q, Or.inr hq, hqx⟩
      · rintro (h | ⟨hx, q, (hq | hq), hqx⟩)
        · exact Or.inl (Or.inr h)
        · subst hq; exact Or.inl (Or.inl hqx.symm)
        · exact Or.inr ⟨hx, q, hq, hqx⟩
    · simp only [seenAfter, if_neg hw, ih, List.mem_cons]
      constructor
      · rintro (h | ⟨hx, q, hq, hqx⟩)
        · exact Or.inl h
        · exact Or.inr ⟨hx, q, Or.inr hq, hqx⟩
      · rintro (h | ⟨hx, q, (hq | hq), hqx⟩)
        · exact Or.inl h
        · exact absurd (hqx ▸ hx) (by subst hq; exact hw)
        · exact Or.inr ⟨hx, q, hq, hqx⟩

/-- Bridge: the reverse/retain/reverse pass computes exactly the spec-side
last-occurrence filter. -/
theorem retain_reverse_eq_keepLastAux (l : List DNSProvider) (s : List String) :
    (retainProviders l.reverse s).reverse = keepLastAux l s := by
  induction l generalizing s with
  | nil => simp [retainProviders, keepLastAux]
  | cons p rest ih =>
    have hsplit :
        retainProviders (rest.reverse ++ [p]) s =
          retainProviders rest.reverse s ++
            retainProviders [p] (seenAfter rest.reverse s) :=
      retainProviders_append _ _ _
    by_cases hw : p.id ∈ providerWhitelist
    · by_cases hseen : p.id ∈ seenAfter rest.reverse s
      · have hcond :
            ¬(p.id ∈ providerWhitelist ∧ p.id ∉ s ∧ ∀ q ∈ rest, q.id ≠ p.id) := by
          rcases (mem_seenAfter _ _ _).1 hseen with h | ⟨_, q, hq, hqx⟩
          · rintro ⟨_, hns, _⟩; exact hns h
          · rintro ⟨_, _, hall⟩
            exact hall q (by simpa using hq) hqx
        simp only [List.reverse_cons, hsplit, retainProviders, if_pos hw,
          if_pos hseen, List.append_nil, keepLastAux, if_neg hcond]
        exact ih s
      · have hcond :
            p.id ∈ providerWhitelist ∧ p.id ∉ s ∧ ∀ q ∈ rest, q.id ≠ p.id := by
          refine ⟨hw, ?_, ?_⟩
          · intro h
            exact hseen ((mem_seenAfter _ _ _).2 (Or.inl h))
          · intro q hq hqx
            exact hseen ((mem_seenAfter _ _ _).2
              (Or.inr ⟨hqx ▸ hw, q, by simpa using hq, hqx⟩))
        simp only [List.reverse_cons, hsplit, retainProviders, if_pos hw,
          if_neg hseen, keepLastAux, if_pos hcond, List.reverse_append,
          List.reverse_cons, List.reverse_nil]
        simp [ih s]
    · simp only [List.reverse_cons, hsplit, retainProviders, if_neg hw,
        List.append_nil, keepLastAux,
        if_neg (by rintro ⟨h, _, _⟩; exact hw h :
          ¬(p.id ∈ providerWhitelist ∧ p.id ∉ s ∧ ∀ q ∈ rest, q.id ≠ p.id))]
      exact ih s

theorem dedupProviders_eq_keepLast (l : List DNSProvider) :
    dedupProviders l = keepLast l := by
  have h := retain_reverse_eq_keepLastAux l []
  simpa [dedupProviders, keepLast] using h

theorem keepLastAux_sublist (l : List DNSProvider) (s : List String) :
    (keepLastAux l s).Sublist l := by
  induction l generalizing s with
  | nil => simp [keepLastAux]
  | cons p rest ih =>
    by_cases h : p.id ∈ providerWhitelist ∧ p.id ∉ s ∧ ∀ q ∈ rest, q.id ≠ p.id
    · simpa [keepLastAux, if_pos h] using (ih s).cons₂ p
    · exact List.Sublist.trans (by simpa [keepLastAux, if_neg h] using ih s)
        (List.sublist_cons_self p rest)

theorem keepLastAux_whitelisted (l : List DNSProvider) (s : List String) :
    ∀ p ∈ keepLastAux l s, p.id ∈ providerWhitelist := by
  induction l generalizing s with
  | nil => simp [keepLastAux]
  | cons p rest ih =>
    by_cases h : p.id ∈ providerWhitelist ∧ p.id ∉ s ∧ ∀ q ∈ rest, q.id ≠ p.id
    · simp only [keepLastAux, if_pos h, List.mem_cons]
      rintro q (rfl | hq)
      · exact h.1
      · exact ih s q hq
    · simpa [keepLastAux, if_neg h] using ih s

theorem keepLastAux_nodup_ids (l : List DNSProvider) (s : List String) :
    ((keepLastAux l s).map DNSProvider.id).Nodup := by
  induction l generalizing s with
  | nil => simp [keepLastAux]
  | cons p rest ih =>
    by_cases h : p.id ∈ providerWhitelist ∧ p.id ∉ s ∧ ∀ q ∈ rest, q.id ≠ p.id
    · simp only [keepLastAux, if_pos h, List.map_cons, List.nodup_cons]
      refine ⟨?_, ih s⟩
      intro hmem
      rcases List.mem_map.1 hmem with ⟨q, hq, hqid⟩
      exact h.2.2 q ((keepLastAux_sublist rest s).mem hq) hqid
    · simpa [keepLastAux, if_neg h] using ih s

/-- `keepLastAux` is the identity on lists that already satisfy the invariant:
all ids whitelisted, ids pairwise distinct, and none of the ids in `s`. -/
theorem keepLastAux_fixed (l : List DNSProvider) (s : List String)
    (hw : ∀ p ∈ l, p.id ∈ providerWhitelist)
    (hn : (l.map DNSProvider.id).Nodup)
    (hs : ∀ p ∈ l, p.id ∉ s) :
    keepLastAux l s = l := by
  induction l generalizing s with
  | nil => simp [keepLastAux]
  | cons p rest ih =>
    rw [List.map_cons, List.nodup_cons] at hn
    have hcond : p.id ∈ providerWhitelist ∧ p.id ∉ s ∧ ∀ q ∈ rest, q.id ≠ p.id := by
      refine ⟨hw p (List.mem_cons_self p rest), hs p (List.mem_cons_self p rest), ?_⟩
      intro q hq hqid
      exact hn.1 (hqid ▸ List.mem_map_of_mem DNSProvider.id hq)
    rw [keepLastAux, if_pos hcond,
      ih s (fun q hq => hw q (List.mem_cons_of_mem p hq)) hn.2
        (fun q hq => hs q (List.mem_cons_of_mem p hq))]

theorem keepLast_idem (l : List DNSProvider) :
    keepLast (keepLast l) = keepLast l :=
  keepLastAux_fixed _ _ (keepLastAux_whitelisted l [])
    (keepLastAux_nodup_ids l []) (by simp)

theorem dedupProviders_idem (l : List DNSProvider) :
    dedupProviders (dedupProviders l) = dedupProviders l := by
  rw [dedupProviders_eq_keepLast, dedupProviders_eq_keepLast, keepLast_idem]

/-!
## Spot checks of the address parsers -/

example : parseIpv4 "0.0.0.0" = some (0, 0, 0, 0) := by decide
example : parseIpv4 "255.255.255.255" = some (255, 255, 255, 255) := by decide
example : parseIpv4 "256.0.0.0" = none := by decide
example : parseIpv4 "01.0.0.0" = none := by decide
example : parseIpv4 "1.2.3" = none := by decide
example : parseIpv4 "1.2.3.4.5" = none := by decide
example : parseIpv4 "not-an-ip" = none := by decide
example : parseIpv6 "0:0:0:0:0:0:0:0" = some [0, 0, 0, 0, 0, 0, 0, 0] := by decide
example : parseIpv6 "::1" = some [0, 0, 0, 0, 0, 0, 0, 1] := by decide
example : parseIpv6 "::" = some [0, 0, 0, 0, 0, 0, 0, 0] := by decide
example : parseIpv6 "::ffff:1.2.3.4" = some [0, 0, 0, 0, 0, 65535, 258, 772] := by decide
example : parseIpv6 "1:2:3:4:5:6:7:8" = some [1, 2, 3, 4, 5, 6, 7, 8] := by decide
example : parseIpv6 "1:2:3:4:5:6:7:8:9" = none := by decide
example : parseIpv6 "1.2.3.4" = none := by decide
example : parseIpv6 "0.0.0.0" = none := by decide

/-!
## `fmt` helper lemmas -/

theorem parseIpv4_default : parseIpv4 "0.0.0.0" = some (0, 0, 0, 0) := by decide

theorem parseIpv6_default :
    parseIpv6 "0:0:0:0:0:0:0:0" = some [0, 0, 0, 0, 0, 0, 0, 0] := by decide

theorem fmt_ipv4 (c : Cache) (now : LocalTime) :
    (c.fmt now).data.ipv4_address =
      match parseIpv4 c.data.ipv4_address with
      | some _ => c.data.ipv4_address
      | none => "0.0.0.0" := rfl

theorem fmt_ipv6 (c : Cache) (now : LocalTime) :
    (c.fmt now).data.ipv6_address =
      match parseIpv6 c.data.ipv6_address with
      | some _ => c.data.ipv6_address
      | none => "0:0:0:0:0:0:0:0" := rfl

theorem fmt_providers (c : Cache) (now : LocalTime) :
    (c.fmt now).data.dns_providers = dedupProviders c.data.dns_providers := rfl

/-- Every `fmt` output has a normalized `DATA` block. -/
theorem fmt_dataNormalized (c : Cache) (now : LocalTime) :
    (c.fmt now).DataNormalized := by
  refine ⟨?_, ?_, ?_⟩
  · rw [fmt_ipv4]
    cases h : parseIpv4 c.data.ipv4_address with
    | some v => simp [h]
    | none => simp [h, parseIpv4_default]
  · rw [fmt_ipv6]
    cases h : parseIpv6 c.data.ipv6_address with
    | some v => simp [h]
    | none => simp [h, parseIpv6_default]
  · rw [fmt_providers, dedupProviders_idem]

/-- On a cache whose `DATA` block is already normalized, `fmt` only rewrites
the metadata. -/
theorem fmt_of_dataNormalized (c : Cache) (now : LocalTime)
    (h : c.DataNormalized) :
    c.fmt now =
      ⟨⟨warningText, "wapi-cache", cargoPkgVersion,
        "The cache file for the Wapi client.", "https://github.com/AmonRayfa/wapi",
        formatTimestamp now⟩, c.data⟩ := by
  obtain ⟨h4, h6, hp⟩ := h
  rcases Option.isSome_iff_exists.1 h4 with ⟨v4, hv4⟩
  rcases Option.isSome_iff_exists.1 h6 with ⟨v6, hv6⟩
  simp only [Cache.fmt, hv4, hv6, hp]

/-- Appending an entry whose id is whitelisted and then filtering the result of
`keepLastAux` for that id yields exactly the appended entry. -/
theorem keepLastAux_append_filter (l : List DNSProvider) (p : DNSProvider)
    (s : List String) (hw : p.id ∈ providerWhitelist) (hs : p.id ∉ s) :
    (keepLastAux (l ++ [p]) s).filter (fun q => q.id = p.id) = [p] := by
  induction l with
  | nil =>
    have hcond : p.id ∈ providerWhitelist ∧ p.id ∉ s ∧
        ∀ q ∈ ([] : List DNSProvider), q.id ≠ p.id := ⟨hw, hs, by simp⟩
    show (if p.id ∈ providerWhitelist ∧ p.id ∉ s ∧
        ∀ q ∈ ([] : List DNSProvider), q.id ≠ p.id then
          p :: keepLastAux [] s else keepLastAux [] s).filter
        (fun q => q.id = p.id) = [p]
    rw [if_pos hcond]
    simp [keepLastAux]
  | cons q rest ih =>
    show (if q.id ∈ providerWhitelist ∧ q.id ∉ s ∧
        ∀ x ∈ rest ++ [p], x.id ≠ q.id then
          q :: keepLastAux (rest ++ [p]) s else keepLastAux (rest ++ [p]) s).filter
        (fun x => x.id = p.id) = [p]
    by_cases h : q.id ∈ providerWhitelist ∧ q.id ∉ s ∧
        ∀ x ∈ rest ++ [p], x.id ≠ q.id
    · have hne : ¬(q.id = p.id) := by
        intro he
        exact h.2.2 p (List.mem_append_right rest (List.mem_singleton_self p)) he.symm
      rw [if_pos h, List.filter_cons]
      simpa [hne] using ih
    · rw [if_neg h]
      exact ih

/-- Appending an entry whose id is not whitelisted does not change the
last-occurrence filter. -/
theorem keepLastAux_append_unwhitelisted (l : List DNSProvider) (p : DNSProvider)
    (s : List String) (hw : p.id ∉ providerWhitelist) :
    keepLastAux (l ++ [p]) s = keepLastAux l s := by
  induction l with
  | nil =>
    show (if p.id ∈ providerWhitelist ∧ p.id ∉ s ∧
        ∀ q ∈ ([] : List DNSProvider), q.id ≠ p.id then
          p :: keepLastAux [] s else keepLastAux [] s) = keepLastAux [] s
    rw [if_neg (by rintro ⟨h1, _, _⟩; exact hw h1)]
  | cons q rest ih =>
    show (if q.id ∈ providerWhitelist ∧ q.id ∉ s ∧
        ∀ x ∈ rest ++ [p], x.id ≠ q.id then
          q :: keepLastAux (rest ++ [p]) s else keepLastAux (rest ++ [p]) s) =
        (if q.id ∈ providerWhitelist ∧ q.id ∉ s ∧
        ∀ x ∈ rest, x.id ≠ q.id then
          q :: keepLastAux rest s else keepLastAux rest s)
    by_cases h : q.id ∈ providerWhitelist ∧ q.id ∉ s ∧ ∀ x ∈ rest, x.id ≠ q.id
    · have h' : q.id ∈ providerWhitelist ∧ q.id ∉ s ∧
          ∀ x ∈ rest ++ [p], x.id ≠ q.id := by
        refine ⟨h.1, h.2.1, ?_⟩
        intro x hx
        rcases List.mem_append.1 hx with hx | hx
        · exact h.2.2 x hx
        · rcases List.mem_singleton.1 hx with rfl
          intro he
          exact hw (he ▸ h.1)
      rw [if_pos h, if_pos h', ih]
    · have h' : ¬(q.id ∈ providerWhitelist ∧ q.id ∉ s ∧
          ∀ x ∈ rest ++ [p], x.id ≠ q.id) := by
        intro hc
        exact h ⟨hc.1, hc.2.1, fun x hx => hc.2.2 x (List.mem_append_left _ hx)⟩
      rw [if_neg h, if_neg h', ih]

/-- Deduplicating after appending a whitelisted entry keeps exactly that entry
for its id. -/
theorem dedup_append_filter (l : List DNSProvider) (p : DNSProvider)
    (hw : p.id ∈ providerWhitelist) :
    (dedupProviders (l ++ [p])).filter (fun q => q.id = p.id) = [p] := by
  rw [dedupProviders_eq_keepLast]
  exact keepLastAux_append_filter l p [] hw (by simp)

/-- Everything the deduplication pass keeps was in the input list. -/
theorem mem_of_mem_dedupProviders {p : DNSProvider} {l : List DNSProvider}
    (h : p ∈ dedupProviders l) : p ∈ l := by
  rw [dedupProviders_eq_keepLast] at h
  exact (keepLastAux_sublist l []).mem h

/-!
## The claims -/

/-- C1 (counterexample): the file content `"corrupt"` does not deserialize,
and `load` on it surfaces a `load` error instead of returning a default,
normalized record. -/
theorem load_corrupt_surfaces_error :
    cacheFromStr "corrupt" = Except.error "invalid JSON" ∧
      Cache.load (some ()) (Except.ok "corrupt") =
        Except.error (ApiError.Cache "load" "invalid JSON") :=
  ⟨rfl, rfl⟩

/-- C1 (amended): whenever the file content fails to deserialize as a
`Cache`, `load` surfaces the failure as a `load` error carrying the
deserializer's message; no default record is substituted. -/
theorem load_deserialize_failure_is_error (content e : String)
    (h : cacheFromStr content = Except.error e) :
    Cache.load (some ()) (Except.ok content) =
      Except.error (ApiError.Cache "load" e) := by
  show (match cacheFromStr content with
    | Except.ok c => Except.ok c
    | Except.error e2 => Except.error (ApiError.Cache "load" e2)) =
      Except.error (ApiError.Cache "load" e)
  rw [h]

/-- C1 (witness): the amended theorem applied to the content `"corrupt"`. -/
theorem load_deserialize_failure_is_error_witness :
    Cache.load (some ()) (Except.ok "corrupt") =
      Except.error (ApiError.Cache "load" "invalid JSON") :=
  load_deserialize_failure_is_error "corrupt" "invalid JSON" rfl

/-- C2: after normalization the provider list is exactly the last-occurrence
filter of the original (whitelisted entries only, each id keeping the
credential data of its last occurrence, original relative order preserved),
every kept id is whitelisted, and the kept ids are pairwise distinct. -/
theorem fmt_providers_normalization (c : Cache) (now : LocalTime) :
    (c.fmt now).data.dns_providers = keepLast c.data.dns_providers ∧
      (∀ p ∈ (c.fmt now).data.dns_providers, p.id ∈ providerWhitelist) ∧
      ((c.fmt now).data.dns_providers.map DNSProvider.id).Nodup := by
  refine ⟨?_, ?_, ?_⟩
  · rw [fmt_providers, dedupProviders_eq_keepLast]
  · rw [fmt_providers, dedupProviders_eq_keepLast]
    exact keepLastAux_whitelisted _ _
  · rw [fmt_providers, dedupProviders_eq_keepLast]
    exact keepLastAux_nodup_ids _ _

set_option maxRecDepth 100000 in
/-- C3 (counterexample): `load` on a well-formed file whose stored
`ipv4_address` is `"not-an-ip"` returns the deserialized record unchanged, so
the returned `ipv4_address` is `"not-an-ip"`, not `"0.0.0.0"`: `load` does
not normalize. -/
theorem load_preserves_invalid_ipv4 :
    Cache.load (some ()) (Except.ok sampleBadIpv4File) =
        Except.ok sampleBadIpv4Cache ∧
      sampleBadIpv4Cache.data.ipv4_address = "not-an-ip" ∧
      "not-an-ip" ≠ "0.0.0.0" :=
  ⟨rfl, rfl, by decide⟩

/-- C3 (amended): `load` returns the record exactly as deserialized, with no
normalization pass; an invalid stored `ipv4_address` such as `"not-an-ip"`
survives `load` unchanged. -/
theorem load_returns_deserialized_unchanged (content : String) (c : Cache)
    (h : cacheFromStr content = Except.ok c) :
    Cache.load (some ()) (Except.ok content) = Except.ok c := by
  show (match cacheFromStr content with
    | Except.ok c2 => Except.ok c2
    | Except.error e => Except.error (ApiError.Cache "load" e)) = Except.ok c
  rw [h]

set_option maxRecDepth 100000 in
/-- C3 (witness): the amended theorem applied to the sample file with the
invalid stored IPv4 address. -/
theorem load_returns_deserialized_unchanged_witness :
    Cache.load (some ()) (Except.ok sampleBadIpv4File) =
      Except.ok sampleBadIpv4Cache :=
  load_returns_deserialized_unchanged sampleBadIpv4File sampleBadIpv4Cache rfl

/-- C4 (counterexample): when reading the cache file fails because the file
is absent, `load` surfaces the read error — it does not create the file or
recover. -/
theorem load_absent_file_errors :
    Cache.load (some ())
        (Except.error "No such file or directory (os error 2)") =
      Except.error (ApiError.Cache "load"
        "No such file or directory (os error 2)") := rfl

/-- C4 (amended): `load` performs no bootstrap: once the path resolves it
reads the file directly, and any read failure (an absent file included) is
surfaced as a `load` error. -/
theorem load_read_failure_is_error (msg : String) :
    Cache.load (some ()) (Except.error msg) =
      Except.error (ApiError.Cache "load" msg) := rfl

/-- C5: normalization is idempotent modulo the timestamp: after a second
`fmt`, every metadata field other than `timestamp`, and the whole `DATA`
block, are unchanged from the first `fmt`. -/
theorem fmt_idempotent_mod_timestamp (c : Cache) (t1 t2 : LocalTime) :
    ((c.fmt t1).fmt t2).metadata.warning = (c.fmt t1).metadata.warning ∧
      ((c.fmt t1).fmt t2).metadata.name = (c.fmt t1).metadata.name ∧
      ((c.fmt t1).fmt t2).metadata.version = (c.fmt t1).metadata.version ∧
      ((c.fmt t1).fmt t2).metadata.description = (c.fmt t1).metadata.description ∧
      ((c.fmt t1).fmt t2).metadata.homepage = (c.fmt t1).metadata.homepage ∧
      ((c.fmt t1).fmt t2).data = (c.fmt t1).data := by
  rw [fmt_of_dataNormalized (c.fmt t1) t2 (fmt_dataNormalized c t1)]
  exact ⟨rfl, rfl, rfl, rfl, rfl, rfl⟩

/-- C6: normalization replaces the IPv4 field with `"0.0.0.0"` exactly when
it does not parse as an IPv4 address and keeps it unchanged when it does, and
likewise for IPv6 with `"0:0:0:0:0:0:0:0"`. -/
theorem fmt_address_validation (c : Cache) (now : LocalTime) :
    (parseIpv4 c.data.ipv4_address = none →
        (c.fmt now).data.ipv4_address = "0.0.0.0") ∧
      (∀ v, parseIpv4 c.data.ipv4_address = some v →
        (c.fmt now).data.ipv4_address = c.data.ipv4_address) ∧
      (parseIpv6 c.data.ipv6_address = none →
        (c.fmt now).data.ipv6_address = "0:0:0:0:0:0:0:0") ∧
      (∀ v, parseIpv6 c.data.ipv6_address = some v →
        (c.fmt now).data.ipv6_address = c.data.ipv6_address) := by
  refine ⟨?_, ?_, ?_, ?_⟩
  · intro h; rw [fmt_ipv4, h]
  · intro v h; rw [fmt_ipv4, h]
  · intro h; rw [fmt_ipv6, h]
  · intro v h; rw [fmt_ipv6, h]

/-- C6 (witness): the theorem applied to a record with invalid addresses and
to one with valid addresses. -/
theorem fmt_address_validation_witness :
    ((Cache.mk ⟨"", "", "", "", "", ""⟩ ⟨"not-an-ip", "xyz", []⟩).fmt
        sampleNow).data.ipv4_address = "0.0.0.0" ∧
      ((Cache.mk ⟨"", "", "", "", "", ""⟩ ⟨"not-an-ip", "xyz", []⟩).fmt
        sampleNow).data.ipv6_address = "0:0:0:0:0:0:0:0" ∧
      ((Cache.mk ⟨"", "", "", "", "", ""⟩ ⟨"1.2.3.4", "::1", []⟩).fmt
        sampleNow).data.ipv4_address = "1.2.3.4" ∧
      ((Cache.mk ⟨"", "", "", "", "", ""⟩ ⟨"1.2.3.4", "::1", []⟩).fmt
        sampleNow).data.ipv6_address = "::1" :=
  ⟨(fmt_address_validation _ sampleNow).1 (by decide),
   (fmt_address_validation _ sampleNow).2.2.1 (by decide),
   (fmt_address_validation _ sampleNow).2.1 (1, 2, 3, 4) (by decide),
   (fmt_address_validation _ sampleNow).2.2.2 [0, 0, 0, 0, 0, 0, 0, 1] (by decide)⟩

/-- C7: adding a credential for a whitelisted id and then adding again with
the same id and different keys leaves exactly one credential for that id, and
it holds the second keys. -/
theorem add_same_provider_supersedes (c : Cache) (id k1 s1 k2 s2 : String)
    (t1 t2 t3 t4 : LocalTime) (h : id ∈ providerWhitelist) :
    (((c.add_dns_provider id k1 s1 t1 t2).add_dns_provider
        id k2 s2 t3 t4).data.dns_providers).filter (fun p => p.id = id) =
      [⟨id, k2, s2⟩] := by
  have hfin : ((c.add_dns_provider id k1 s1 t1 t2).add_dns_provider
      id k2 s2 t3 t4).data.dns_providers =
      dedupProviders
        (((c.add_dns_provider id k1 s1 t1 t2).fmt t3).data.dns_providers ++
          [⟨id, k2, s2⟩]) := rfl
  rw [hfin]
  exact dedup_append_filter _ ⟨id, k2, s2⟩ h

/-- C7 (witness): re-adding `cloudflare` with new keys leaves exactly the new
credential. -/
theorem add_same_provider_supersedes_witness :
    ((((Cache.new sampleNow).add_dns_provider "cloudflare" "K1" "S1"
        sampleNow sampleNow).add_dns_provider "cloudflare" "K2" "S2"
        sampleNow sampleNow).data.dns_providers).filter
      (fun p => p.id = "cloudflare") = [⟨"cloudflare", "K2", "S2"⟩] :=
  add_same_provider_supersedes (Cache.new sampleNow) "cloudflare" "K1" "S1"
    "K2" "S2" sampleNow sampleNow sampleNow sampleNow (by decide)

/-- C8: on a `DATA`-normalized record, `remove_dns_provider` removes every
credential with the given id, and is a no-op on the credential list (same
content, same order) when no credential has that id. -/
theorem remove_dns_provider_spec (c : Cache) (id : String) (t1 t2 : LocalTime)
    (h : c.DataNormalized) :
    (∀ p ∈ (c.remove_dns_provider id t1 t2).data.dns_providers, p.id ≠ id) ∧
      ((∀ p ∈ c.data.dns_providers, p.id ≠ id) →
        (c.remove_dns_provider id t1 t2).data.dns_providers =
          c.data.dns_providers) := by
  have hfin : (c.remove_dns_provider id t1 t2).data.dns_providers =
      dedupProviders
        (((c.fmt t1).data.dns_providers).filter (fun p => p.id ≠ id)) := rfl
  have h1 : (c.fmt t1).data.dns_providers = c.data.dns_providers := by
    rw [fmt_providers, h.2.2]
  constructor
  · intro p hp
    rw [hfin] at hp
    have := List.of_mem_filter (mem_of_mem_dedupProviders hp)
    simpa using this
  · intro hno
    rw [hfin, h1, List.filter_eq_self.mpr (fun p hp => by simpa using hno p hp),
      h.2.2]

/-- C8 (witness): removing the absent id `godaddy` from a normalized
single-credential record leaves the credential list unchanged. -/
theorem remove_dns_provider_spec_witness :
    (sampleNormalizedCache.remove_dns_provider "godaddy" sampleNow
        sampleNow).data.dns_providers = sampleNormalizedCache.data.dns_providers :=
  (remove_dns_provider_spec sampleNormalizedCache "godaddy" sampleNow sampleNow
    (by decide)).2 (by decide)

/-- C9: `fmt` overwrites the whole metadata block with the fixed warning,
name, description and homepage, the program version, and the formatted clock
reading, regardless of the previous metadata. -/
theorem fmt_overwrites_metadata (c : Cache) (now : LocalTime) :
    (c.fmt now).metadata =
      ⟨warningText, "wapi-cache", cargoPkgVersion,
       "The cache file for the Wapi client.", "https://github.com/AmonRayfa/wapi",
       formatTimestamp now⟩ := rfl

/-- C10: on a `DATA`-normalized record, adding a credential whose id is not
whitelisted returns normally and leaves the credential list exactly as it
was: the appended entry is discarded by the post-mutation `fmt`. -/
theorem add_unrecognized_provider_noop (c : Cache) (id k s : String)
    (t1 t2 : LocalTime) (h1 : c.DataNormalized)
    (h2 : id ∉ providerWhitelist) :
    (c.add_dns_provider id k s t1 t2).data.dns_providers =
      c.data.dns_providers := by
  have hfin : (c.add_dns_provider id k s t1 t2).data.dns_providers =
      dedupProviders ((c.fmt t1).data.dns_providers ++ [⟨id, k, s⟩]) := rfl
  rw [hfin, fmt_providers, h1.2.2, dedupProviders_eq_keepLast, keepLast,
    keepLastAux_append_unwhitelisted _ _ _ h2]
  have : keepLastAux c.data.dns_providers [] = keepLast c.data.dns_providers := rfl
  rw [this, ← dedupProviders_eq_keepLast, h1.2.2]

/-- C10 (witness): adding `some_random_name` to a normalized record leaves
the single `cloudflare` credential in place. -/
theorem add_unrecognized_provider_noop_witness :
    (sampleNormalizedCache.add_dns_provider "some_random_name" "K" "S"
        sampleNow sampleNow).data.dns_providers =
      sampleNormalizedCache.data.dns_providers :=
  add_unrecognized_provider_noop sampleNormalizedCache "some_random_name" "K"
    "S" sampleNow sampleNow (by decide) (by decide)

end Wapi
